import Mathlib

/-!
Shallow embedding of the document-ingestion core of the immigration-ai-agent
frontend: the service layer (src/frontend/src/services/documentService.ts) and
the page controller that drives it (the DocumentsPage handleFileSelect flow).
Network and storage effects are modelled by explicit oracles; each service
operation returns its result together with the number of network requests it
issued.
-/

namespace Ingestion

/-- The stored identity record (the parsed localStorage `user` blob). -/
structure Identity where
  user_id : String
  email : String
deriving DecidableEq

/-- `getAuthHeaders` from documentService.ts: reads the stored identity and
produces the request headers, or throws `Not authenticated` when no record
exists.  No network calls. -/
def getAuthHeaders (stored : Option Identity) : Except String (List (String × String)) :=
  match stored with
  | none => .error "Not authenticated"
  | some userData =>
      .ok [("Content-Type", "application/json"),
           ("Authorization", "Bearer " ++ userData.user_id),
           ("X-User-Email", userData.email)]

/-- One extracted field: a string value with a confidence score. -/
structure ExtractedField where
  value : String
  confidence : ℚ
deriving DecidableEq

/-- The fixed six-field extraction set (interface ExtractedData). -/
structure ExtractedData where
  full_name : ExtractedField
  sevis_id : ExtractedField
  program_end_date : ExtractedField
  school_name : ExtractedField
  degree_level : ExtractedField
  opt_eligible : ExtractedField
deriving DecidableEq

/-- `Object.values(extracted_data)` in field-declaration order. -/
def fieldsOf (d : ExtractedData) : List ExtractedField :=
  [d.full_name, d.sevis_id, d.program_end_date, d.school_name,
   d.degree_level, d.opt_eligible]

/-- The backend document status tag. -/
inductive DocStatus
  | uploading
  | processing
  | completed
  | failed
  | needs_verification
deriving DecidableEq

/-- The status snapshot the backend returns for one document
(interface DocumentStatus). -/
structure DocumentStatus where
  document_id : String
  status : DocStatus
  extracted_data : Option ExtractedData
  error_message : Option String
deriving DecidableEq

/-- The negotiated upload target (interface UploadUrlResponse); the field
mapping is kept as an ordered list because the client replays it in order. -/
structure UploadUrlResponse where
  document_id : String
  upload_url : String
  upload_fields : List (String × String)
deriving DecidableEq

/-- A document as listed by the backend (interface Document). -/
structure Document where
  document_id : String
  document_type : String
  file_name : String
  status : String
deriving DecidableEq

/-- What the network does for one HTTP request issued through axios: a success
payload, an HTTP error response (status code plus the optional
`error.message` the backend put in the body), or a transport failure with no
response at all. -/
inductive HttpOutcome (α : Type)
  | ok (data : α)
  | httpError (status : Nat) (message : Option String)
  | networkError
deriving DecidableEq

/-- Result of one service operation: the value or thrown error message, plus
how many network requests the operation issued. -/
structure OpResult (α : Type) where
  result : Except String α
  requests : Nat

/-- `error.response?.data?.error?.message || default`. -/
def messageOr (message : Option String) (default : String) : String :=
  match message with
  | some m => if m = "" then default else m
  | none => default

/-- `DocumentService.requestUploadUrl`: asks the backend for a presigned upload
target.  The auth-header read happens inside the try block, so a missing
identity is caught and rethrown as the generic message. -/
def requestUploadUrl (stored : Option Identity)
    (transport : HttpOutcome UploadUrlResponse) : OpResult UploadUrlResponse :=
  match getAuthHeaders stored with
  | .error _ => { result := .error "Failed to get upload URL", requests := 0 }
  | .ok _ =>
      match transport with
      | .ok d => { result := .ok d, requests := 1 }
      | .httpError _ message =>
          { result := .error (messageOr message "Failed to get upload URL"), requests := 1 }
      | .networkError => { result := .error "Failed to get upload URL", requests := 1 }

/-- A file as the page hands it to the service (name and MIME type). -/
structure FileInfo where
  name : String
  type : String
deriving DecidableEq

/-- One value appended to the multipart FormData body: a plain string field or
the file payload. -/
inductive FormValue
  | str (s : String)
  | filePart (f : FileInfo)
deriving DecidableEq

/-- What the storage service does during `uploadToS3`: the progress events it
fires (loaded, total) and whether the POST succeeds. -/
structure S3Oracle where
  events : List (Nat × Nat)
  ok : Bool

/-- JavaScript `Math.round` on a nonnegative value: round half toward
positive infinity. -/
def jsRound (x : ℚ) : ℤ := ⌊x + 1/2⌋

/-- `Math.round((progressEvent.loaded * 100) / progressEvent.total)`. -/
def progressPercent (loaded total : Nat) : ℤ :=
  jsRound ((loaded * 100 : ℚ) / total)

/-- The FormData body built by `uploadToS3`: every negotiated field appended
first via `Object.keys(uploadFields).forEach(append)`, then the file appended
last under the fixed name `file`. -/
def buildFormData (uploadFields : List (String × String)) (file : FileInfo) :
    List (String × FormValue) :=
  (uploadFields.foldl (fun fd kv => fd ++ [(kv.1, FormValue.str kv.2)]) [])
    ++ [("file", FormValue.filePart file)]

/-- Observable run of `uploadToS3`: the multipart body it built, the sequence
of percentages delivered to the progress callback, and the outcome. -/
structure S3Run where
  formData : List (String × FormValue)
  progressCalls : List ℤ
  result : Except String Unit

/-- `DocumentService.uploadToS3`: builds the multipart body, posts it, and on
each progress event with a nonzero total reports
`Math.round(loaded * 100 / total)`; any failure is rethrown as the fixed
message `Failed to upload file`. -/
def uploadToS3 (file : FileInfo) (_uploadUrl : String)
    (uploadFields : List (String × String)) (s3 : S3Oracle) : S3Run :=
  { formData := buildFormData uploadFields file
    progressCalls :=
      s3.events.filterMap (fun e =>
        if e.2 ≠ 0 then some (progressPercent e.1 e.2) else none)
    result := if s3.ok then .ok () else .error "Failed to upload file" }

/-- `MAX_POLL_ATTEMPTS`. -/
def MAX_POLL_ATTEMPTS : Nat := 30

/-- What one status request does: a status snapshot, or a transport error. -/
inductive PollFetch
  | ok (s : DocumentStatus)
  | transportError
deriving DecidableEq

/-- `['completed', 'failed', 'needs_verification'].includes(status.status)`. -/
def isTerminal (s : DocStatus) : Bool :=
  s = .completed || s = .failed || s = .needs_verification

/-- The body of the `while (attempts < MAX_POLL_ATTEMPTS)` loop of
`pollDocumentStatus`, as structural recursion on
`fuel = MAX_POLL_ATTEMPTS - attempts` (the guard `attempts < MAX_POLL_ATTEMPTS`
holds exactly when the fuel is nonzero).  `fetch n` is the response to the
n-th status request; the header read happens inside the per-iteration try, so
a missing identity takes the catch path without issuing a request. -/
def pollGo (stored : Option Identity) (fetch : Nat → PollFetch)
    (attempts : Nat) : Nat → OpResult DocumentStatus
  | 0 => { result := .error "Processing took too long", requests := 0 }
  | fuel + 1 =>
      match getAuthHeaders stored with
      | .error _ =>
          if MAX_POLL_ATTEMPTS - 1 ≤ attempts then
            { result := .error "Processing timeout", requests := 0 }
          else
            pollGo stored fetch (attempts + 1) fuel
      | .ok _ =>
          match fetch attempts with
          | .ok s =>
              if isTerminal s.status then { result := .ok s, requests := 1 }
              else
                { result := (pollGo stored fetch (attempts + 1) fuel).result,
                  requests := (pollGo stored fetch (attempts + 1) fuel).requests + 1 }
          | .transportError =>
              if MAX_POLL_ATTEMPTS - 1 ≤ attempts then
                { result := .error "Processing timeout", requests := 1 }
              else
                { result := (pollGo stored fetch (attempts + 1) fuel).result,
                  requests := (pollGo stored fetch (attempts + 1) fuel).requests + 1 }

/-- `DocumentService.pollDocumentStatus`: start the loop at `attempts = 0`. -/
def pollDocumentStatus (stored : Option Identity) (fetch : Nat → PollFetch) :
    OpResult DocumentStatus :=
  pollGo stored fetch 0 MAX_POLL_ATTEMPTS

/-- Whether the n-th status response is a terminal snapshot. -/
def terminalAt (fetch : Nat → PollFetch) (n : Nat) : Bool :=
  match fetch n with
  | .ok s => isTerminal s.status
  | .transportError => false

/-- `DocumentService.submitCorrections`. -/
def submitCorrections (stored : Option Identity) (_documentId : String)
    (transport : HttpOutcome Unit) : OpResult Unit :=
  match getAuthHeaders stored with
  | .error _ => { result := .error "Failed to save corrections", requests := 0 }
  | .ok _ =>
      match transport with
      | .ok _ => { result := .ok (), requests := 1 }
      | .httpError _ message =>
          { result := .error (messageOr message "Failed to save corrections"), requests := 1 }
      | .networkError => { result := .error "Failed to save corrections", requests := 1 }

/-- `DocumentService.getDocuments`: the success payload is
`response.data.data.documents || []`; an error response whose status is 403 is
swallowed and returned as the empty list; every other failure is rethrown. -/
def getDocuments (stored : Option Identity)
    (transport : HttpOutcome (Option (List Document))) : OpResult (List Document) :=
  match getAuthHeaders stored with
  | .error _ => { result := .error "Failed to load documents", requests := 0 }
  | .ok _ =>
      match transport with
      | .ok docs => { result := .ok (docs.getD []), requests := 1 }
      | .httpError status message =>
          if status = 403 then { result := .ok [], requests := 1 }
          else { result := .error (messageOr message "Failed to load documents"), requests := 1 }
      | .networkError => { result := .error "Failed to load documents", requests := 1 }

/-- `DocumentService.getDocument`. -/
def getDocument (stored : Option Identity) (_documentId : String)
    (transport : HttpOutcome DocumentStatus) : OpResult DocumentStatus :=
  match getAuthHeaders stored with
  | .error _ => { result := .error "Failed to load document", requests := 0 }
  | .ok _ =>
      match transport with
      | .ok d => { result := .ok d, requests := 1 }
      | .httpError _ message =>
          { result := .error (messageOr message "Failed to load document"), requests := 1 }
      | .networkError => { result := .error "Failed to load document", requests := 1 }

/-- `DocumentService.deleteDocument`. -/
def deleteDocument (stored : Option Identity) (_documentId : String)
    (transport : HttpOutcome Unit) : OpResult Unit :=
  match getAuthHeaders stored with
  | .error _ => { result := .error "Failed to delete document", requests := 0 }
  | .ok _ =>
      match transport with
      | .ok _ => { result := .ok (), requests := 1 }
      | .httpError _ message =>
          { result := .error (messageOr message "Failed to delete document"), requests := 1 }
      | .networkError => { result := .error "Failed to delete document", requests := 1 }

/-- The discriminated upload state of the DocumentsPage controller
(type UploadState). -/
inductive UploadState
  | idle
  | uploading (progress : ℤ) (fileName : String)
  | processing (documentId : String) (fileName : String)
  | success (documentId : String) (data : ExtractedData)
  | needs_verification (documentId : String) (data : ExtractedData)
  | failed (error : String)
deriving DecidableEq

/-- `Object.values(result.extracted_data).some(f => f.confidence < 0.70)`. -/
def needsVerification (d : ExtractedData) : Bool :=
  (fieldsOf d).any (fun f => decide (f.confidence < 7/10))

/-- `error.message || default` in a catch block. -/
def errMessageOr (m : String) (default : String) : String :=
  if m = "" then default else m

/-- The world `handleFileSelect` runs against: the stored identity and what
the network and storage services do at each step. -/
structure Env where
  stored : Option Identity
  negotiate : HttpOutcome UploadUrlResponse
  s3 : S3Oracle
  poll : Nat → PollFetch

/-- Observable run of one `handleFileSelect` invocation: the sequence of
`setUploadState` calls in order, the number of status-poll requests issued,
and the number of `loadDocuments` invocations. -/
structure RunResult where
  states : List UploadState
  pollRequests : Nat
  listReloads : Nat
deriving DecidableEq

/-- `handleFileSelect` from the DocumentsPage: set `uploading`, negotiate the
upload target, transfer to storage (progress callback sets `uploading` with
the reported percent), set `processing` with the negotiated document id, poll,
then handle the result: `completed` with extracted data routes by confidence
to `success` or `needs_verification`; `failed` carries the message; any other
terminal result sets no state; finally `loadDocuments` reloads the list.  Any
thrown error is caught and sets `failed` with the error message. -/
def handleFileSelect (env : Env) (file : FileInfo) : RunResult :=
  let s0 := UploadState.uploading 0 file.name
  match (requestUploadUrl env.stored env.negotiate).result with
  | .error m => { states := [s0, .failed (errMessageOr m "Upload failed")],
                  pollRequests := 0, listReloads := 0 }
  | .ok uploadData =>
      let s3run := uploadToS3 file uploadData.upload_url uploadData.upload_fields env.s3
      let progressStates := s3run.progressCalls.map (fun p => UploadState.uploading p file.name)
      match s3run.result with
      | .error m =>
          { states := [s0] ++ progressStates ++ [.failed (errMessageOr m "Upload failed")],
            pollRequests := 0, listReloads := 0 }
      | .ok _ =>
          let s1 := UploadState.processing uploadData.document_id file.name
          let pollRun := pollDocumentStatus env.stored env.poll
          match pollRun.result with
          | .error m =>
              { states := [s0] ++ progressStates ++ [s1, .failed (errMessageOr m "Upload failed")],
                pollRequests := pollRun.requests, listReloads := 0 }
          | .ok result =>
              let resultStates : List UploadState :=
                if result.status = DocStatus.completed then
                  match result.extracted_data with
                  | some d =>
                      if needsVerification d then
                        [.needs_verification uploadData.document_id d]
                      else
                        [.success uploadData.document_id d]
                  | none => []
                else if result.status = DocStatus.failed then
                  [.failed (messageOr result.error_message "Processing failed")]
                else []
              { states := [s0] ++ progressStates ++ [s1] ++ resultStates,
                pollRequests := pollRun.requests, listReloads := 1 }

/-- The last `setUploadState` call of the run: the state the page is left in. -/
def finalState (r : RunResult) : Option UploadState :=
  r.states.getLast?

/-- The minimum confidence across the six extracted fields. -/
def minConf (d : ExtractedData) : ℚ :=
  min d.full_name.confidence (min d.sevis_id.confidence
    (min d.program_end_date.confidence (min d.school_name.confidence
      (min d.degree_level.confidence d.opt_eligible.confidence))))

/-! Concrete fixtures used to instantiate the theorems below. -/

/-- A concrete stored identity. -/
def uW : Identity := ⟨"u-1", "u@example.com"⟩

/-- A concrete file. -/
def fileW : FileInfo := ⟨"f.pdf", "application/pdf"⟩

/-- A concrete negotiated upload target. -/
def udW : UploadUrlResponse :=
  ⟨"doc-1", "https://bucket.example", [("key", "uploads/f.pdf"), ("policy", "p0")]⟩

/-- An extraction whose minimum confidence is exactly 7/10 (the boundary). -/
def dBoundary : ExtractedData :=
  { full_name := ⟨"A", 9/10⟩, sevis_id := ⟨"B", 7/10⟩, program_end_date := ⟨"C", 9/10⟩,
    school_name := ⟨"D", 9/10⟩, degree_level := ⟨"E", 9/10⟩, opt_eligible := ⟨"F", 9/10⟩ }

/-- An extraction with one low-confidence field. -/
def dLow : ExtractedData :=
  { full_name := ⟨"A", 95/100⟩, sevis_id := ⟨"B", 55/100⟩, program_end_date := ⟨"C", 95/100⟩,
    school_name := ⟨"D", 95/100⟩, degree_level := ⟨"E", 95/100⟩, opt_eligible := ⟨"F", 95/100⟩ }

/-- A completed snapshot carrying the boundary extraction. -/
def rComp : DocumentStatus := ⟨"doc-1", .completed, some dBoundary, none⟩

/-- A completed snapshot with no extracted data (the protocol violation). -/
def rNoData : DocumentStatus := ⟨"doc-1", .completed, none, none⟩

/-- A snapshot whose status is `needs_verification` directly. -/
def rNV : DocumentStatus := ⟨"doc-1", .needs_verification, some dBoundary, none⟩

/-- A non-terminal `processing` snapshot. -/
def rProc : DocumentStatus := ⟨"doc-1", .processing, none, none⟩

/-- A fetch sequence: two `processing` responses, then a terminal one. -/
def fetchW : Nat → PollFetch :=
  fun n => if n < 2 then .ok rProc else .ok rComp

/-- A fetch sequence that never turns terminal. -/
def fetchProc : Nat → PollFetch := fun _ => .ok rProc

/-- A happy-path environment parameterised by the poll behaviour. -/
def envOf (p : Nat → PollFetch) : Env :=
  { stored := some uW, negotiate := .ok udW, s3 := { events := [], ok := true }, poll := p }

/-- Environment whose poller resolves `needs_verification` directly. -/
def envNV : Env := envOf (fun _ => .ok rNV)

/-- Environment whose poller resolves `completed` without extracted data. -/
def envNoData : Env := envOf (fun _ => .ok rNoData)

/-- Environment whose poller resolves `completed` with the boundary data. -/
def envB : Env := envOf (fun _ => .ok rComp)

/-- Environment where negotiation succeeds and the storage transfer fails. -/
def envS3Fail : Env :=
  { stored := some uW, negotiate := .ok udW, s3 := { events := [], ok := false },
    poll := fun _ => .ok rComp }

/-- A concrete storage oracle with three well-formed progress events. -/
def oW : S3Oracle := { events := [(0, 100), (50, 100), (100, 100)], ok := true }

/-! Helper lemmas shared by the claim theorems. -/

theorem needsVerification_iff_minConf (d : ExtractedData) :
    needsVerification d = true ↔ minConf d < 7/10 := by
  simp [needsVerification, fieldsOf, minConf, min_lt_iff, List.any_cons, List.any_nil,
    decide_eq_true_iff, or_assoc]

theorem foldl_append_formData (l : List (String × String)) (acc : List (String × FormValue)) :
    l.foldl (fun fd kv => fd ++ [(kv.1, FormValue.str kv.2)]) acc
      = acc ++ l.map (fun kv => (kv.1, FormValue.str kv.2)) := by
  induction l generalizing acc with
  | nil => simp
  | cons a l ih => simp [List.foldl_cons, ih, List.append_assoc]

theorem pollGo_requests_le (u : Identity) (fetch : Nat → PollFetch) :
    ∀ fuel a, (pollGo (some u) fetch a fuel).requests ≤ fuel := by
  intro fuel
  induction fuel with
  | zero => intro a; simp [pollGo]
  | succ fuel ih =>
      intro a
      simp only [pollGo, getAuthHeaders]
      cases h : fetch a with
      | ok s =>
          by_cases ht : isTerminal s.status
          · simp [ht]
          · simp [ht]
            exact ih (a + 1)
      | transportError =>
          by_cases hge : MAX_POLL_ATTEMPTS - 1 ≤ a
          · simp [hge]
          · simp [hge]
            exact ih (a + 1)

theorem pollGo_first_terminal (u : Identity) (fetch : Nat → PollFetch) :
    ∀ fuel a i s, a + fuel = MAX_POLL_ATTEMPTS → a ≤ i → i < MAX_POLL_ATTEMPTS →
      fetch i = .ok s → isTerminal s.status = true →
      (∀ j, a ≤ j → j < i → terminalAt fetch j = false) →
      pollGo (some u) fetch a fuel = { result := .ok s, requests := i + 1 - a } := by
  intro fuel
  induction fuel with
  | zero =>
      intro a i s hsum hai hi _ _ _
      omega
  | succ fuel ih =>
      intro a i s hsum hai hi hfetch hterm hfirst
      simp only [pollGo, getAuthHeaders]
      rcases Nat.eq_or_lt_of_le hai with rfl | hlt
      · simp [hfetch, hterm]
      · have hnt : terminalAt fetch a = false := hfirst a le_rfl hlt
        cases h : fetch a with
        | ok s' =>
            have ht' : isTerminal s'.status = false := by
              simpa [terminalAt, h] using hnt
            simp only [h, ht']
            have := ih (a + 1) i s (by omega) (by omega) hi hfetch hterm
              (fun j hj1 hj2 => hfirst j (by omega) hj2)
            simp [Bool.false_eq_true, if_false, this]
            omega
        | transportError =>
            have hge : ¬ (MAX_POLL_ATTEMPTS - 1 ≤ a) := by
              simp [MAX_POLL_ATTEMPTS] at hsum hi ⊢
              omega
            simp only [h, if_neg hge]
            have := ih (a + 1) i s (by omega) (by omega) hi hfetch hterm
              (fun j hj1 hj2 => hfirst j (by omega) hj2)
            simp [this]
            omega

theorem pollGo_no_terminal (u : Identity) (fetch : Nat → PollFetch) :
    ∀ fuel a, a + fuel = MAX_POLL_ATTEMPTS →
      (∀ j, a ≤ j → j < MAX_POLL_ATTEMPTS → terminalAt fetch j = false) →
      (pollGo (some u) fetch a fuel).requests = fuel ∧
      ((pollGo (some u) fetch a fuel).result = .error "Processing timeout" ∨
       (pollGo (some u) fetch a fuel).result = .error "Processing took too long") := by
  intro fuel
  induction fuel with
  | zero =>
      intro a _ _
      simp [pollGo]
  | succ fuel ih =>
      intro a hsum hall
      have ha : a < MAX_POLL_ATTEMPTS := by omega
      have hnt : terminalAt fetch a = false := hall a le_rfl ha
      simp only [pollGo, getAuthHeaders]
      cases h : fetch a with
      | ok s =>
          have ht : isTerminal s.status = false := by
            simpa [terminalAt, h] using hnt
          simp only [ht, Bool.false_eq_true, if_false]
          have := ih (a + 1) (by omega) (fun j hj1 hj2 => hall j (by omega) hj2)
          refine ⟨by simp [this.1], by simpa using this.2⟩
      | transportError =>
          by_cases hge : MAX_POLL_ATTEMPTS - 1 ≤ a
          · have hfuel : fuel = 0 := by
              simp only [MAX_POLL_ATTEMPTS] at hsum hge
              omega
            subst hfuel
            simp [hge]
          · simp only [if_neg hge]
            have := ih (a + 1) (by omega) (fun j hj1 hj2 => hall j (by omega) hj2)
            refine ⟨by simp [this.1], by simpa using this.2⟩

theorem getLast?_run1 {α : Type} (a y : α) (l : List α) :
    (a :: (l ++ [y])).getLast? = some y := by
  rw [show a :: (l ++ [y]) = (a :: l) ++ y :: [] by simp]
  rw [List.getLast?_append_cons]
  rfl

theorem getLast?_run2 {α : Type} (a x y : α) (l : List α) :
    (a :: (l ++ [x, y])).getLast? = some y := by
  rw [show l ++ [x, y] = (l ++ [x]) ++ [y] by simp]
  exact getLast?_run1 a y (l ++ [x])

theorem exists_field_lt_iff_minConf (d : ExtractedData) :
    (∃ f ∈ fieldsOf d, f.confidence < 7/10) ↔ minConf d < 7/10 := by
  simp [fieldsOf, minConf, min_lt_iff, or_assoc]

theorem progressPercent_mono (t l1 l2 : Nat) (ht : 0 < t) (h : l1 ≤ l2) :
    progressPercent l1 t ≤ progressPercent l2 t := by
  unfold progressPercent jsRound
  apply Int.floor_le_floor
  have ht2 : (0 : ℚ) < t := by exact_mod_cast ht
  have hl : (l1 : ℚ) ≤ l2 := by exact_mod_cast h
  have : (l1 * 100 : ℚ) / t ≤ (l2 * 100 : ℚ) / t := by
    apply div_le_div_of_nonneg_right ?_ ht2.le
    nlinarith
  linarith

theorem progressPercent_nonneg (l t : Nat) : 0 ≤ progressPercent l t := by
  unfold progressPercent jsRound
  rw [Int.le_floor]
  have h1 : (0 : ℚ) ≤ (l * 100 : ℚ) / t := by positivity
  push_cast
  linarith

theorem progressPercent_le_100 (l t : Nat) (ht : 0 < t) (h : l ≤ t) :
    progressPercent l t ≤ 100 := by
  unfold progressPercent jsRound
  have ht2 : (0 : ℚ) < t := by exact_mod_cast ht
  have hl : (l : ℚ) ≤ t := by exact_mod_cast h
  have hq : (l * 100 : ℚ) / t ≤ 100 := by
    rw [div_le_iff₀ ht2]
    nlinarith
  have hfl : ⌊(l * 100 : ℚ) / t + 1/2⌋ < 101 := by
    rw [Int.floor_lt]
    push_cast
    linarith
  omega

theorem filterMap_progress_total (events : List (Nat × Nat))
    (h : ∀ e ∈ events, e.2 ≠ 0) :
    events.filterMap (fun e => if e.2 ≠ 0 then some (progressPercent e.1 e.2) else none)
      = events.map (fun e => progressPercent e.1 e.2) := by
  induction events with
  | nil => simp
  | cons a l ih =>
      have ha := h a (List.mem_cons_self a l)
      simp only [List.filterMap_cons, ha, if_true, List.map_cons,
        ih (fun e he => h e (List.mem_cons_of_mem a he))]
      simp [ha]

/-! The claim theorems. -/

/-- Claim C1: for every completed extraction result reached by the pipeline,
the document is routed to needs-verification exactly when at least one
extracted field has confidence strictly below 7/10 — equivalently when the
minimum confidence across all fields is below 7/10 — and to success
otherwise; a minimum of exactly 7/10 routes to success. -/
theorem pipeline_routes_by_min_confidence (env : Env) (file : FileInfo)
    (ud : UploadUrlResponse) (r : DocumentStatus) (d : ExtractedData)
    (hneg : (requestUploadUrl env.stored env.negotiate).result = .ok ud)
    (hs3 : env.s3.ok = true)
    (hpoll : (pollDocumentStatus env.stored env.poll).result = .ok r)
    (hst : r.status = .completed)
    (hdata : r.extracted_data = some d) :
    ((finalState (handleFileSelect env file)
        = some (.needs_verification ud.document_id d))
        ↔ ∃ f ∈ fieldsOf d, f.confidence < 7/10) ∧
    ((finalState (handleFileSelect env file)
        = some (.needs_verification ud.document_id d)) ↔ minConf d < 7/10) ∧
    ((finalState (handleFileSelect env file)
        = some (.success ud.document_id d)) ↔ 7/10 ≤ minConf d) ∧
    (minConf d = 7/10 →
      finalState (handleFileSelect env file) = some (.success ud.document_id d)) := by
  have hbody : handleFileSelect env file =
      { states := [UploadState.uploading 0 file.name]
          ++ ((uploadToS3 file ud.upload_url ud.upload_fields env.s3).progressCalls.map
                (fun p => UploadState.uploading p file.name))
          ++ [UploadState.processing ud.document_id file.name]
          ++ (if needsVerification d then
                [UploadState.needs_verification ud.document_id d]
              else [UploadState.success ud.document_id d]),
        pollRequests := (pollDocumentStatus env.stored env.poll).requests,
        listReloads := 1 } := by
    simp only [handleFileSelect, hneg, uploadToS3, hs3, if_true, hpoll, hst, hdata]
  by_cases hnv : needsVerification d = true
  · have hlt : minConf d < 7/10 := (needsVerification_iff_minConf d).mp hnv
    refine ⟨?_, ?_, ?_, ?_⟩
    · rw [exists_field_lt_iff_minConf]
      simp [hbody, finalState, hnv, getLast?_run2, hlt]
    · simp [hbody, finalState, hnv, getLast?_run2, hlt]
    · simp [hbody, finalState, hnv, getLast?_run2, not_le.mpr hlt]
    · intro h
      exact absurd hlt (by rw [h]; exact lt_irrefl _)
  · have hge : 7/10 ≤ minConf d :=
      not_lt.mp (fun h => hnv ((needsVerification_iff_minConf d).mpr h))
    refine ⟨?_, ?_, ?_, ?_⟩
    · rw [exists_field_lt_iff_minConf]
      simp [hbody, finalState, hnv, getLast?_run2, not_lt.mpr hge]
    · simp [hbody, finalState, hnv, getLast?_run2, not_lt.mpr hge]
    · simp [hbody, finalState, hnv, getLast?_run2, hge]
    · intro _
      simp [hbody, finalState, hnv, getLast?_run2]

/-- Witness for C1: the boundary extraction (minimum confidence exactly 7/10)
routes to success on a concrete happy-path run. -/
theorem pipeline_routes_by_min_confidence_witness :
    finalState (handleFileSelect envB fileW) = some (.success "doc-1" dBoundary) := by
  have h := (pipeline_routes_by_min_confidence envB fileW udW rComp dBoundary
    rfl rfl rfl rfl rfl).2.2.2
  exact h (by norm_num [minConf, dBoundary])

/-- Claim C2: with a stored identity, `pollDocumentStatus` issues at most
`MAX_POLL_ATTEMPTS = 30` status requests; it returns the snapshot of the
first terminal response observed, having issued exactly that many requests;
and when no response among the first 30 is terminal — non-terminal snapshots
and transport errors alike each consuming one attempt — it fails with a
processing-timeout error after exactly 30 requests. -/
theorem pollDocumentStatus_bounded_terminal_timeout (u : Identity)
    (fetch : Nat → PollFetch) :
    MAX_POLL_ATTEMPTS = 30 ∧
    (pollDocumentStatus (some u) fetch).requests ≤ MAX_POLL_ATTEMPTS ∧
    (∀ i s, i < MAX_POLL_ATTEMPTS → fetch i = .ok s → isTerminal s.status = true →
      (∀ j, j < i → terminalAt fetch j = false) →
      pollDocumentStatus (some u) fetch = { result := .ok s, requests := i + 1 }) ∧
    ((∀ j, j < MAX_POLL_ATTEMPTS → terminalAt fetch j = false) →
      (pollDocumentStatus (some u) fetch).requests = MAX_POLL_ATTEMPTS ∧
      ((pollDocumentStatus (some u) fetch).result = .error "Processing timeout" ∨
       (pollDocumentStatus (some u) fetch).result = .error "Processing took too long")) := by
  refine ⟨rfl, ?_, ?_, ?_⟩
  · exact pollGo_requests_le u fetch MAX_POLL_ATTEMPTS 0
  · intro i s hi hfe hterm hfirst
    have := pollGo_first_terminal u fetch MAX_POLL_ATTEMPTS 0 i s (by omega)
      (Nat.zero_le i) hi hfe hterm (fun j _ hj => hfirst j hj)
    simpa using this
  · intro hall
    exact pollGo_no_terminal u fetch MAX_POLL_ATTEMPTS 0 (by omega)
      (fun j _ hj => hall j hj)

/-- Witness for C2: on a concrete sequence whose third response is terminal
the poller returns that snapshot after 3 requests, and on an all-`processing`
sequence it times out after exactly 30 requests. -/
theorem pollDocumentStatus_bounded_terminal_timeout_witness :
    pollDocumentStatus (some uW) fetchW = { result := .ok rComp, requests := 3 } ∧
    ((pollDocumentStatus (some uW) fetchProc).requests = MAX_POLL_ATTEMPTS ∧
      ((pollDocumentStatus (some uW) fetchProc).result = .error "Processing timeout" ∨
       (pollDocumentStatus (some uW) fetchProc).result
          = .error "Processing took too long")) := by
  constructor
  · exact (pollDocumentStatus_bounded_terminal_timeout uW fetchW).2.2.1 2 rComp
      (by decide) rfl rfl (by decide)
  · exact (pollDocumentStatus_bounded_terminal_timeout uW fetchProc).2.2.2 (by decide)

/-- Claim C3 (failing input): when the poller resolves with status
needs-verification directly, `handleFileSelect` sets no terminal state — the
run sets only `uploading` and `processing`, so the pipeline stays in
`processing` instead of moving to `needs_verification` as the specified
transition table requires; the document list is still reloaded once. -/
theorem handleFileSelect_ignores_direct_needs_verification :
    handleFileSelect envNV fileW =
      { states := [.uploading 0 "f.pdf", .processing "doc-1" "f.pdf"],
        pollRequests := 1, listReloads := 1 } ∧
    (pollDocumentStatus envNV.stored envNV.poll).result = .ok rNV ∧
    rNV.status = .needs_verification := by
  refine ⟨by decide, rfl, rfl⟩

/-- Claim C4: in every run of `handleFileSelect`, every `processing` state in
the trace carries the document identifier returned by the successful upload
negotiation, and every `success` or `needs_verification` state carries the
negotiated document identifier together with an extraction payload that is
exactly the `extracted_data` of the completed poll result. -/
theorem handleFileSelect_state_payload_provenance (env : Env) (file : FileInfo) :
    ∀ s ∈ (handleFileSelect env file).states,
      (∀ docId fn, s = UploadState.processing docId fn →
        ∃ ud, (requestUploadUrl env.stored env.negotiate).result = .ok ud ∧
          docId = ud.document_id ∧ fn = file.name) ∧
      (∀ docId d,
        (s = UploadState.success docId d ∨ s = UploadState.needs_verification docId d) →
        ∃ ud r, (requestUploadUrl env.stored env.negotiate).result = .ok ud ∧
          docId = ud.document_id ∧
          (pollDocumentStatus env.stored env.poll).result = .ok r ∧
          r.status = DocStatus.completed ∧ r.extracted_data = some d) := by
  intro s hs
  cases hneg : (requestUploadUrl env.stored env.negotiate).result with
  | error m =>
      simp only [handleFileSelect, hneg, List.mem_cons, List.not_mem_nil, or_false] at hs
      rcases hs with rfl | rfl
      · exact ⟨by rintro a b h; simp at h, by rintro a b (h | h) <;> simp at h⟩
      · exact ⟨by rintro a b h; simp at h, by rintro a b (h | h) <;> simp at h⟩
  | ok ud =>
      by_cases hs3 : env.s3.ok = true
      · cases hpoll : (pollDocumentStatus env.stored env.poll).result with
        | error m =>
            simp only [handleFileSelect, hneg, uploadToS3, hs3, if_true, hpoll,
              List.mem_append, List.mem_cons, List.mem_map, List.not_mem_nil,
              or_false, List.mem_singleton] at hs
            rcases hs with (rfl | ⟨p, _, rfl⟩) | rfl | rfl
            · exact ⟨by rintro a b h; simp at h, by rintro a b (h | h) <;> simp at h⟩
            · exact ⟨by rintro a b h; simp at h, by rintro a b (h | h) <;> simp at h⟩
            · refine ⟨?_, by rintro a b (h | h) <;> simp at h⟩
              rintro docId fn h
              cases h
              exact ⟨ud, rfl, rfl, rfl⟩
            · exact ⟨by rintro a b h; simp at h, by rintro a b (h | h) <;> simp at h⟩
        | ok r =>
            by_cases hst : r.status = DocStatus.completed
            · cases hdata : r.extracted_data with
              | none =>
                  simp only [handleFileSelect, hneg, uploadToS3, hs3, if_true, hpoll, hst,
                    hdata, List.mem_append, List.mem_cons, List.mem_map, List.not_mem_nil,
                    or_false, List.mem_singleton, List.append_nil, if_true] at hs
                  rcases hs with (rfl | ⟨p, _, rfl⟩) | rfl
                  · exact ⟨by rintro a b h; simp at h, by rintro a b (h | h) <;> simp at h⟩
                  · exact ⟨by rintro a b h; simp at h, by rintro a b (h | h) <;> simp at h⟩
                  · refine ⟨?_, by rintro a b (h | h) <;> simp at h⟩
                    rintro docId fn h
                    cases h
                    exact ⟨ud, rfl, rfl, rfl⟩
              | some d =>
                  by_cases hnv : needsVerification d = true
                  · simp only [handleFileSelect, hneg, uploadToS3, hs3, if_true, hpoll, hst,
                      hdata, hnv, List.mem_append, List.mem_cons, List.mem_map,
                      List.not_mem_nil, or_false, List.mem_singleton] at hs
                    rcases hs with ((rfl | ⟨p, _, rfl⟩) | rfl) | rfl
                    · exact ⟨by rintro a b h; simp at h, by rintro a b (h | h) <;> simp at h⟩
                    · exact ⟨by rintro a b h; simp at h, by rintro a b (h | h) <;> simp at h⟩
                    · refine ⟨?_, by rintro a b (h | h) <;> simp at h⟩
                      rintro docId fn h
                      cases h
                      exact ⟨ud, rfl, rfl, rfl⟩
                    · refine ⟨by rintro a b h; simp at h, ?_⟩
                      rintro docId d2 h
                      rcases h with h | h
                      · simp at h
                      · cases h
                        exact ⟨ud, r, rfl, rfl, rfl, hst, hdata⟩
                  · simp only [handleFileSelect, hneg, uploadToS3, hs3, if_true, hpoll, hst,
                      hdata, hnv, List.mem_append, List.mem_cons, List.mem_map,
                      List.not_mem_nil, or_false, List.mem_singleton, Bool.false_eq_true,
                      if_false] at hs
                    rcases hs with ((rfl | ⟨p, _, rfl⟩) | rfl) | rfl
                    · exact ⟨by rintro a b h; simp at h, by rintro a b (h | h) <;> simp at h⟩
                    · exact ⟨by rintro a b h; simp at h, by rintro a b (h | h) <;> simp at h⟩
                    · refine ⟨?_, by rintro a b (h | h) <;> simp at h⟩
                      rintro docId fn h
                      cases h
                      exact ⟨ud, rfl, rfl, rfl⟩
                    · refine ⟨by rintro a b h; simp at h, ?_⟩
                      rintro docId d2 h
                      rcases h with h | h
                      · cases h
                        exact ⟨ud, r, rfl, rfl, rfl, hst, hdata⟩
                      · simp at h
            · by_cases hfd : r.status = DocStatus.failed
              · simp only [handleFileSelect, hneg, uploadToS3, hs3, if_true, hpoll,
                  if_neg hst, if_pos hfd, List.mem_append, List.mem_cons, List.mem_map,
                  List.not_mem_nil, or_false, List.mem_singleton] at hs
                rcases hs with ((rfl | ⟨p, _, rfl⟩) | rfl) | rfl
                · exact ⟨by rintro a b h; simp at h, by rintro a b (h | h) <;> simp at h⟩
                · exact ⟨by rintro a b h; simp at h, by rintro a b (h | h) <;> simp at h⟩
                · refine ⟨?_, by rintro a b (h | h) <;> simp at h⟩
                  rintro docId fn h
                  cases h
                  exact ⟨ud, rfl, rfl, rfl⟩
                · exact ⟨by rintro a b h; simp at h, by rintro a b (h | h) <;> simp at h⟩
              · simp only [handleFileSelect, hneg, uploadToS3, hs3, if_true, hpoll,
                  if_neg hst, if_neg hfd, List.mem_append, List.mem_cons, List.mem_map,
                  List.not_mem_nil, or_false, List.mem_singleton, List.append_nil] at hs
                rcases hs with (rfl | ⟨p, _, rfl⟩) | rfl
                · exact ⟨by rintro a b h; simp at h, by rintro a b (h | h) <;> simp at h⟩
                · exact ⟨by rintro a b h; simp at h, by rintro a b (h | h) <;> simp at h⟩
                · refine ⟨?_, by rintro a b (h | h) <;> simp at h⟩
                  rintro docId fn h
                  cases h
                  exact ⟨ud, rfl, rfl, rfl⟩
      · simp only [handleFileSelect, hneg, uploadToS3, hs3, Bool.false_eq_true, if_false,
          List.mem_append, List.mem_cons, List.mem_map, List.not_mem_nil, or_false,
          List.mem_singleton] at hs
        rcases hs with (rfl | ⟨p, _, rfl⟩) | rfl
        · exact ⟨by rintro a b h; simp at h, by rintro a b (h | h) <;> simp at h⟩
        · exact ⟨by rintro a b h; simp at h, by rintro a b (h | h) <;> simp at h⟩
        · exact ⟨by rintro a b h; simp at h, by rintro a b (h | h) <;> simp at h⟩

/-- Witness for C4: in a concrete run the `processing` state carries the
negotiated document identifier. -/
theorem handleFileSelect_state_payload_provenance_witness :
    ∃ ud, (requestUploadUrl envNV.stored envNV.negotiate).result = .ok ud ∧
      "doc-1" = ud.document_id ∧ "f.pdf" = fileW.name :=
  (handleFileSelect_state_payload_provenance envNV fileW
    (.processing "doc-1" "f.pdf") (by decide)).1 "doc-1" "f.pdf" rfl

/-- Claim C5: when negotiation succeeds and the storage transfer fails, the
run ends in `failed` carrying the transfer error message
(`Failed to upload file`) and issues no status-poll request. -/
theorem handleFileSelect_transfer_failure_no_poll (env : Env) (file : FileInfo)
    (ud : UploadUrlResponse)
    (hneg : (requestUploadUrl env.stored env.negotiate).result = .ok ud)
    (hs3 : env.s3.ok = false) :
    (uploadToS3 file ud.upload_url ud.upload_fields env.s3).result
      = .error "Failed to upload file" ∧
    finalState (handleFileSelect env file) = some (.failed "Failed to upload file") ∧
    (handleFileSelect env file).pollRequests = 0 := by
  have hup : (uploadToS3 file ud.upload_url ud.upload_fields env.s3).result
      = .error "Failed to upload file" := by
    simp [uploadToS3, hs3]
  have hbody : handleFileSelect env file =
      { states := [UploadState.uploading 0 file.name]
          ++ ((uploadToS3 file ud.upload_url ud.upload_fields env.s3).progressCalls.map
                (fun p => UploadState.uploading p file.name))
          ++ [UploadState.failed (errMessageOr "Failed to upload file" "Upload failed")],
        pollRequests := 0, listReloads := 0 } := by
    simp only [handleFileSelect, hneg, hup]
  refine ⟨hup, ?_, ?_⟩
  · simp [hbody, finalState, getLast?_run1, errMessageOr]
  · simp [hbody]

/-- Witness for C5 on a concrete environment with a failing transfer. -/
theorem handleFileSelect_transfer_failure_no_poll_witness :
    (uploadToS3 fileW udW.upload_url udW.upload_fields envS3Fail.s3).result
        = .error "Failed to upload file" ∧
    finalState (handleFileSelect envS3Fail fileW) = some (.failed "Failed to upload file") ∧
    (handleFileSelect envS3Fail fileW).pollRequests = 0 :=
  handleFileSelect_transfer_failure_no_poll envS3Fail fileW udW rfl rfl

/-- Claim C6 (amended): each percentage delivered to the progress callback is
`Math.round`, i.e. round-half-up, of `bytesSent * 100 / bytesTotal` — not
floor — and for any event sequence with a fixed positive total,
non-decreasing loaded bytes bounded by the total, the delivered values are
non-decreasing integers within 0 and 100. -/
theorem uploadToS3_progress_round_monotone_bounded (file : FileInfo) (url : String)
    (fields : List (String × String)) (o : S3Oracle) (T : Nat) (hT : 0 < T)
    (htot : ∀ e ∈ o.events, e.2 = T)
    (hb : ∀ e ∈ o.events, e.1 ≤ e.2)
    (hmono : o.events.Pairwise (fun e1 e2 => e1.1 ≤ e2.1)) :
    (uploadToS3 file url fields o).progressCalls
        = o.events.map (fun e => jsRound ((e.1 * 100 : ℚ) / e.2)) ∧
    (uploadToS3 file url fields o).progressCalls.Pairwise (· ≤ ·) ∧
    (∀ p ∈ (uploadToS3 file url fields o).progressCalls, 0 ≤ p ∧ p ≤ 100) := by
  have hne : ∀ e ∈ o.events, e.2 ≠ 0 := fun e he => by
    rw [htot e he]; omega
  have hmap : (uploadToS3 file url fields o).progressCalls
      = o.events.map (fun e => progressPercent e.1 e.2) := by
    simp only [uploadToS3]
    exact filterMap_progress_total o.events hne
  refine ⟨by rw [hmap]; rfl, ?_, ?_⟩
  · rw [hmap, List.pairwise_map]
    refine hmono.imp_of_mem ?_
    intro e1 e2 h1 h2 hle
    rw [htot e1 h1, htot e2 h2]
    exact progressPercent_mono T e1.1 e2.1 hT hle
  · intro p hp
    rw [hmap, List.mem_map] at hp
    obtain ⟨e, he, rfl⟩ := hp
    refine ⟨progressPercent_nonneg e.1 e.2, ?_⟩
    exact progressPercent_le_100 e.1 e.2 (by rw [htot e he]; exact hT) (hb e he)

/-- Witness for C6 on a concrete three-event upload. -/
theorem uploadToS3_progress_round_monotone_bounded_witness :
    (uploadToS3 fileW "u" [] oW).progressCalls
        = oW.events.map (fun e => jsRound ((e.1 * 100 : ℚ) / e.2)) ∧
    (uploadToS3 fileW "u" [] oW).progressCalls.Pairwise (· ≤ ·) ∧
    (∀ p ∈ (uploadToS3 fileW "u" [] oW).progressCalls, 0 ≤ p ∧ p ≤ 100) :=
  uploadToS3_progress_round_monotone_bounded fileW "u" [] oW 100
    (by decide) (by decide) (by decide) (by decide)

/-- Counterexample for C6 as stated: at a progress event with 1 byte sent of
200, the code delivers `Math.round(0.5) = 1`, while floor gives 0. -/
theorem uploadToS3_progress_rounds_not_floor :
    (uploadToS3 fileW "u" [] { events := [(1, 200)], ok := true }).progressCalls = [1] ∧
    (⌊((1 : ℚ) * 100) / 200⌋ : ℤ) = 0 ∧ (1 : ℤ) ≠ 0 := by
  refine ⟨?_, by norm_num, by decide⟩
  simp [uploadToS3, progressPercent, jsRound]
  norm_num

/-- Claim C7: `uploadToS3` builds the multipart body by appending every
negotiated field first, in mapping order, unaltered, and appends the file
payload last under the fixed field name `file`. -/
theorem uploadToS3_formData_fields_then_file (file : FileInfo) (url : String)
    (fields : List (String × String)) (o : S3Oracle) :
    (uploadToS3 file url fields o).formData
      = fields.map (fun kv => (kv.1, FormValue.str kv.2))
          ++ [("file", FormValue.filePart file)] := by
  simp [uploadToS3, buildFormData, foldl_append_formData]

/-- Claim C8 (amended): with no stored identity, every credential-bearing
operation issues zero network requests and fails, but with the per-operation
generic failure message (for polling, the processing-timeout message after
the attempt budget is consumed) — the `Not authenticated` error is caught
inside each operation rather than surfaced. -/
theorem unauthenticated_ops_fail_without_request (t1 : HttpOutcome UploadUrlResponse)
    (fetch : Nat → PollFetch) (docId : String) (t2 : HttpOutcome Unit)
    (t3 : HttpOutcome (Option (List Document))) (t4 : HttpOutcome DocumentStatus)
    (t5 : HttpOutcome Unit) :
    requestUploadUrl none t1
        = { result := .error "Failed to get upload URL", requests := 0 } ∧
    pollDocumentStatus none fetch
        = { result := .error "Processing timeout", requests := 0 } ∧
    submitCorrections none docId t2
        = { result := .error "Failed to save corrections", requests := 0 } ∧
    getDocuments none t3
        = { result := .error "Failed to load documents", requests := 0 } ∧
    getDocument none docId t4
        = { result := .error "Failed to load document", requests := 0 } ∧
    deleteDocument none docId t5
        = { result := .error "Failed to delete document", requests := 0 } :=
  ⟨rfl, rfl, rfl, rfl, rfl, rfl⟩

/-- Counterexample for C8 as stated: with no stored identity, the upload
negotiation fails with the generic message, not with `Not authenticated`. -/
theorem unauthenticated_error_is_replaced :
    getAuthHeaders none = .error "Not authenticated" ∧
    (requestUploadUrl none .networkError).result = .error "Failed to get upload URL" ∧
    (requestUploadUrl none .networkError).requests = 0 ∧
    "Failed to get upload URL" ≠ "Not authenticated" :=
  ⟨rfl, rfl, rfl, by decide⟩

/-- Claim C9 (amended): `getDocuments` returns the list on success, swallows
only failures whose HTTP status is 403 into an empty list, and propagates
every other failure as an error carrying the backend message when present,
else the generic message. -/
theorem getDocuments_failure_behavior (u : Identity)
    (t : HttpOutcome (Option (List Document))) :
    (∀ docs, t = .ok docs →
      getDocuments (some u) t = { result := .ok (docs.getD []), requests := 1 }) ∧
    (∀ msg, t = .httpError 403 msg →
      getDocuments (some u) t = { result := .ok [], requests := 1 }) ∧
    (∀ st msg, t = .httpError st msg → st ≠ 403 →
      getDocuments (some u) t
        = { result := .error (messageOr msg "Failed to load documents"), requests := 1 }) ∧
    (t = .networkError →
      getDocuments (some u) t
        = { result := .error "Failed to load documents", requests := 1 }) := by
  refine ⟨?_, ?_, ?_, ?_⟩
  · rintro docs rfl
    simp [getDocuments, getAuthHeaders]
  · rintro msg rfl
    simp [getDocuments, getAuthHeaders]
  · rintro st msg rfl hne
    simp [getDocuments, getAuthHeaders, hne]
  · rintro rfl
    simp [getDocuments, getAuthHeaders]

/-- Witness for C9: a 403 response is swallowed into an empty list. -/
theorem getDocuments_failure_behavior_witness :
    getDocuments (some uW) (.httpError 403 none) = { result := .ok [], requests := 1 } :=
  (getDocuments_failure_behavior uW (.httpError 403 none)).2.1 none rfl

/-- Counterexample for C9 as stated: a failure with HTTP status 500 is
propagated as an error, not treated as an empty document list. -/
theorem getDocuments_non403_failure_propagates :
    (getDocuments (some uW) (.httpError 500 none)).result
        = .error "Failed to load documents" ∧
    (getDocuments (some uW) (.httpError 500 none)).result ≠ .ok [] :=
  ⟨rfl, fun h => by simp [getDocuments, getAuthHeaders, messageOr, uW] at h⟩

/-- Claim C10: when the poller resolves `completed` with no extracted data,
`handleFileSelect` sets no terminal state — the run ends still in the
`processing` state — while the document list is reloaded once. -/
theorem handleFileSelect_completed_without_data_stays_processing (env : Env)
    (file : FileInfo) (ud : UploadUrlResponse) (r : DocumentStatus)
    (hneg : (requestUploadUrl env.stored env.negotiate).result = .ok ud)
    (hs3 : env.s3.ok = true)
    (hpoll : (pollDocumentStatus env.stored env.poll).result = .ok r)
    (hst : r.status = .completed)
    (hdata : r.extracted_data = none) :
    finalState (handleFileSelect env file) = some (.processing ud.document_id file.name) ∧
    (handleFileSelect env file).listReloads = 1 := by
  have hbody : handleFileSelect env file =
      { states := [UploadState.uploading 0 file.name]
          ++ ((uploadToS3 file ud.upload_url ud.upload_fields env.s3).progressCalls.map
                (fun p => UploadState.uploading p file.name))
          ++ [UploadState.processing ud.document_id file.name] ++ [],
        pollRequests := (pollDocumentStatus env.stored env.poll).requests,
        listReloads := 1 } := by
    simp only [handleFileSelect, hneg, uploadToS3, hs3, if_true, hpoll, hst, hdata]
  refine ⟨?_, by simp [hbody]⟩
  simp [hbody, finalState, getLast?_run1]

/-- Witness for C10 on a concrete environment. -/
theorem handleFileSelect_completed_without_data_stays_processing_witness :
    finalState (handleFileSelect envNoData fileW) = some (.processing "doc-1" "f.pdf") ∧
    (handleFileSelect envNoData fileW).listReloads = 1 :=
  handleFileSelect_completed_without_data_stays_processing envNoData fileW udW rNoData
    rfl rfl rfl rfl rfl

end Ingestion
